import Mathlib

/-!
Verification of the traffic-simulation core (`simultateur_traffic`).

Shallow embedding of the Python sources:
* `models/feuRouge.py`  — the traffic-light cyclic state machine,
* `models/vehicule.py`  — vehicles,
* `models/route.py`     — routes, obstacle resolution, per-route tick,
* `models/reseau.py`    — the road network and its tick,
* `core/fast_numba.py` / `core/numba_helpers.py` — the kinematics kernels.

Machine floats are modelled as rationals (`ℚ`); every numeric operation of
the source is an exact rational operation performed in the same order.
Python dictionaries are modelled as insertion-ordered lists with unique keys
(Python dicts iterate in insertion order, which the sources rely on).
Reported-and-swallowed exceptions (the `try/except ...: print(...)` pattern
used throughout the sources) are modelled by returning the unchanged state:
the printing has no effect on the simulation state.
-/

/-! ### Traffic light (`models/feuRouge.py`) -/

/-- The three light states, in the order of `ordre_etats = ['rouge', 'vert', 'orange']`. -/
inductive Etat where
  | rouge : Etat
  | vert : Etat
  | orange : Etat
deriving DecidableEq, Repr, Fintype

open Etat

/-- `FeuRouge._changer_etat`: step to the next state of
`ordre_etats = ['rouge', 'vert', 'orange']`, cyclically
(`(index_actuel + 1) % len(ordre_etats)`). -/
def suivant : Etat → Etat
  | rouge => vert
  | vert => orange
  | orange => rouge

/-- A constructed `FeuRouge` object: its cycle dictionary (total over the three
states), current state, and elapsed time in the current state. -/
structure FeuRouge where
  cycle : Etat → ℚ
  etat_actuel : Etat
  temps_ecoule : ℚ
deriving DecidableEq

/-- Smallest of the three cycle durations (used as the termination measure of
the `while` loop of `avancer_temps`). -/
def cycleMin (c : Etat → ℚ) : ℚ :=
  min (c rouge) (min (c vert) (c orange))

theorem cycleMin_le (c : Etat → ℚ) (e : Etat) : cycleMin c ≤ c e := by
  cases e
  · exact min_le_left _ _
  · exact le_trans (min_le_right _ _) (min_le_left _ _)
  · exact le_trans (min_le_right _ _) (min_le_right _ _)

/-- The `while self.temps_ecoule >= duree_etat_actuel` loop of
`FeuRouge.avancer_temps`: fold the elapsed time forward through state
transitions until it is smaller than the current state's duration.
The loop terminates because every duration is at least `cycleMin c > 0`. -/
def boucle (c : Etat → ℚ) (h : 0 < cycleMin c) (e : Etat) (t : ℚ) : Etat × ℚ :=
  if hc : c e ≤ t then
    boucle c h (suivant e) (t - c e)
  else
    (e, t)
termination_by (⌊t / cycleMin c⌋).toNat
decreasing_by
  have hm : 0 < cycleMin c := h
  have hce : cycleMin c ≤ c e := cycleMin_le c e
  have hy0 : 0 ≤ (t - c e) / cycleMin c := div_nonneg (by linarith) hm.le
  have hdiv : (1 : ℚ) ≤ c e / cycleMin c := (one_le_div hm).mpr hce
  have hyx : (t - c e) / cycleMin c ≤ t / cycleMin c - 1 := by
    rw [sub_div]; linarith
  have h1 : ⌊(t - c e) / cycleMin c⌋ ≤ ⌊t / cycleMin c⌋ - 1 := by
    have h2 := Int.floor_mono hyx
    rw [show t / cycleMin c - 1 = t / cycleMin c - ((1 : ℤ) : ℚ) by norm_num,
      Int.floor_sub_int] at h2
    omega
  have h3 : 0 ≤ ⌊(t - c e) / cycleMin c⌋ := Int.floor_nonneg.mpr hy0
  omega

/-- `FeuRouge.avancer_temps(dt)`: a negative `dt` raises `ValueError`, which is
caught and printed, leaving the light unchanged.  Otherwise `dt` is added to
the elapsed time and the overflow is folded forward by the `while` loop.
The guard `0 < cycleMin` always holds for lights built by the constructor
(which substitutes a positive default cycle on invalid input); on a state with
a non-positive duration the Python loop would never terminate, so the
embedding returns the light unchanged there. -/
def FeuRouge.avancer_temps (f : FeuRouge) (dt : ℚ) : FeuRouge :=
  if dt < 0 then f
  else if h : 0 < cycleMin f.cycle then
    let p := boucle f.cycle h f.etat_actuel (f.temps_ecoule + dt)
    { f with etat_actuel := p.1, temps_ecoule := p.2 }
  else f

/-- The default light produced by the fallback branch of `FeuRouge.__init__`:
`{'rouge': 5, 'vert': 5, 'orange': 5}`, state `'rouge'`, elapsed `0`. -/
def feuDefaut : FeuRouge :=
  { cycle := fun _ => 5, etat_actuel := rouge, temps_ecoule := 0 }

/-- Argument of `FeuRouge.__init__`: an `int`/`float`, a dict keyed by states,
or any other (unsupported) Python value. -/
inductive CycleArg where
  | nombre : ℚ → CycleArg
  | table : List (Etat × ℚ) → CycleArg
  | autre : CycleArg

/-- The states of `ordre_etats` missing from a cycle dict. -/
def etatsManquants (m : List (Etat × ℚ)) : List Etat :=
  [rouge, vert, orange].filter (fun e => (m.find? (fun p => decide (p.1 = e))).isNone)

/-- `FeuRouge.__init__(cycle)`: validates the cycle argument; on any
`CycleInvalideError` (non-positive uniform duration, missing state,
non-positive per-state duration, unsupported type) it falls back to the
default 5-second cycle.  Construction always yields a usable light. -/
def FeuRouge.init (cycle : CycleArg) : FeuRouge :=
  match cycle with
  | .nombre d =>
      if d ≤ 0 then feuDefaut
      else { cycle := fun _ => d, etat_actuel := rouge, temps_ecoule := 0 }
  | .table m =>
      if etatsManquants m ≠ [] then feuDefaut
      else if m.any (fun p => decide (p.2 ≤ 0)) then feuDefaut
      else { cycle := fun e => (((m.find? (fun p => decide (p.1 = e))).map Prod.snd).getD 0),
             etat_actuel := rouge, temps_ecoule := 0 }
  | .autre => feuDefaut

/-- `FeuRouge.get_cycle_total`: sum of the three durations. -/
def FeuRouge.get_cycle_total (f : FeuRouge) : ℚ :=
  f.cycle rouge + f.cycle vert + f.cycle orange

/-! ### Vehicle (`models/vehicule.py`) -/

structure Vehicule where
  identifiant : ℕ
  route_actuelle : String
  position : ℚ
  vitesse : ℚ
  historique_routes : List String
deriving DecidableEq, Repr

/-- `Vehicule.avancer(distance)`: negative distance, negative speed or a
negative computed position raise (caught and printed), leaving the vehicle
unchanged; otherwise the position advances by `distance`. -/
def Vehicule.avancer (v : Vehicule) (distance : ℚ) : Vehicule :=
  if distance < 0 then v
  else if v.vitesse < 0 then v
  else
    let nouvelle_position := v.position + distance
    if nouvelle_position < 0 then v
    else { v with position := nouvelle_position }

/-- `Vehicule.changer_de_route(nouvelle_route, nouvelle_position)`: an empty
route name or a negative position raise (caught and printed), leaving the
vehicle unchanged; otherwise the route, position and history are updated. -/
def Vehicule.changer_de_route (v : Vehicule) (nouvelle_route : String)
    (nouvelle_position : ℚ) : Vehicule :=
  if nouvelle_route = "" then v
  else if nouvelle_position < 0 then v
  else { v with route_actuelle := nouvelle_route,
                position := nouvelle_position,
                historique_routes := v.historique_routes ++ [nouvelle_route] }

/-! ### Route (`models/route.py`) -/

/-- A constructed `Route` object. `vehicules_presents` models the Python dict
`{id: vehicule}` (insertion-ordered, keyed by `vehicule.identifiant`);
`feux_rouges` models the dict `{position: FeuRouge}`. -/
structure Route where
  nom : String
  longueur : ℚ
  limite_vitesse : ℚ
  vehicules_presents : List Vehicule
  feux_rouges : List (ℚ × FeuRouge)

/-- `Route.__init__(nom, longueur, limite_vitesse)`: a non-positive length or
speed limit raises (caught and printed) *before any attribute is assigned*,
so no usable object results — modelled as `none`.  On valid input the route
starts with no vehicles and no lights. -/
def Route.init (nom : String) (longueur limite_vitesse : ℚ) : Option Route :=
  if longueur ≤ 0 then none
  else if limite_vitesse ≤ 0 then none
  else some { nom := nom, longueur := longueur, limite_vitesse := limite_vitesse,
              vehicules_presents := [], feux_rouges := [] }

/-- `Route.ajouter_feu_rouge(feu, position)`: out-of-range positions raise
(caught and printed, route unchanged); otherwise the dict entry at `position`
is set (replacing an existing light at the same position, else appending). -/
def Route.ajouter_feu_rouge (r : Route) (feu : FeuRouge) (position : ℚ) : Route :=
  if position < 0 ∨ r.longueur < position then r
  else if (r.feux_rouges.find? (fun pf => decide (pf.1 = position))).isSome then
    { r with feux_rouges :=
        r.feux_rouges.map (fun pf => if pf.1 = position then (position, feu) else pf) }
  else { r with feux_rouges := r.feux_rouges ++ [(position, feu)] }

/-- `Route._get_distance_avant_obstacle(vehicule, distance_max)`: for every
red/amber light strictly past the vehicle and within `distance_max`, lower the
allowed distance to `max(0, position_feu - position - 5)` whenever that bound
is smaller than the running value; finally clamp by the remaining route length
in the same guarded way. -/
def Route.get_distance_avant_obstacle (r : Route) (vehicule : Vehicule)
    (distance_max : ℚ) : ℚ :=
  let distance_possible := r.feux_rouges.foldl
    (fun distance_possible pf =>
      if vehicule.position < pf.1 ∧ pf.1 ≤ vehicule.position + distance_max then
        if pf.2.etat_actuel = rouge ∨ pf.2.etat_actuel = orange then
          let distance_avant_feu := pf.1 - vehicule.position - 5
          if distance_avant_feu < distance_possible then max 0 distance_avant_feu
          else distance_possible
        else distance_possible
      else distance_possible)
    distance_max
  let distance_fin_route := r.longueur - vehicule.position
  if distance_fin_route < distance_possible then max 0 distance_fin_route
  else distance_possible

/-- Modelled from the spec's words (`max_allowed_travel`, spec §4.2), for
comparison with the source's `Route._get_distance_avant_obstacle`:
start from the proposed distance, take the `min` with
`max(0, light_position − vehicle.position − 5)` for every red/amber light with
`vehicle.position < light_position ≤ vehicle.position + proposed_distance`,
then `min` with `length − vehicle.position`, then `max` with `0`. -/
def max_allowed_travel (r : Route) (vehicule : Vehicule) (proposed_distance : ℚ) : ℚ :=
  let allowed := r.feux_rouges.foldl
    (fun allowed pf =>
      if vehicule.position < pf.1 ∧ pf.1 ≤ vehicule.position + proposed_distance then
        if pf.2.etat_actuel = rouge ∨ pf.2.etat_actuel = orange then
          min allowed (max 0 (pf.1 - vehicule.position - 5))
        else allowed
      else allowed)
    proposed_distance
  max 0 (min allowed (r.longueur - vehicule.position))

/-- The body of the per-vehicle loop of `Route.mettre_a_jour_vehicules`:
desired distance is the raw current speed converted to m/s times `dt`;
the obstacle clamp then yields the real distance; the vehicle moves only when
the real distance is positive. -/
def Route.deplacer (r : Route) (dt : ℚ) (vehicule : Vehicule) : Vehicule :=
  let vitesse_ms := vehicule.vitesse * 1000 / 3600
  let distance_souhaitee := vitesse_ms * dt
  let distance_reelle := r.get_distance_avant_obstacle vehicule distance_souhaitee
  if 0 < distance_reelle then vehicule.avancer distance_reelle else vehicule

/-- `Route.mettre_a_jour_vehicules(dt)`: first every light advances by `dt`;
with no resident vehicle, `AucuneMiseAJourPossibleError` is raised, caught and
printed, and `[]` is returned.  Otherwise every vehicle moves by its clamped
distance; vehicles with `position ≥ longueur` are collected (in iteration
order), removed from the route, and returned. -/
def Route.mettre_a_jour_vehicules (r : Route) (dt : ℚ) : Route × List Vehicule :=
  let r1 := { r with feux_rouges :=
      r.feux_rouges.map (fun pf : ℚ × FeuRouge => (pf.1, pf.2.avancer_temps dt)) }
  if r1.vehicules_presents.isEmpty then (r1, [])
  else
    let bouges := r1.vehicules_presents.map (r1.deplacer dt)
    let sortis := bouges.filter (fun v : Vehicule => decide (r1.longueur ≤ v.position))
    let restants := bouges.filter (fun v : Vehicule => !decide (r1.longueur ≤ v.position))
    ({ r1 with vehicules_presents := restants }, sortis)

/-- `Route.ajouter_vehicule(vehicule)`: an already-present identifier or a
position beyond the route length raises (caught and printed, route unchanged);
otherwise the vehicle is stored and its `route_actuelle` set to the route's
name. -/
def Route.ajouter_vehicule (r : Route) (vehicule : Vehicule) : Route :=
  if r.vehicules_presents.any (fun v => decide (v.identifiant = vehicule.identifiant)) then r
  else if r.longueur < vehicule.position then r
  else { r with vehicules_presents :=
      r.vehicules_presents ++ [{ vehicule with route_actuelle := r.nom }] }

/-- `Route.get_nombre_vehicules`. -/
def Route.get_nombre_vehicules (r : Route) : ℕ := r.vehicules_presents.length

/-- `Route.get_densite_trafic`: vehicles per kilometre (`0` for a route of
length `0`; in `ℚ`, division by `0` also yields `0`). -/
def Route.get_densite_trafic (r : Route) : ℚ :=
  let longueur_km := r.longueur / 1000
  if longueur_km = 0 then 0 else (r.vehicules_presents.length : ℚ) / longueur_km

/-! ### Road network (`models/reseau.py`) -/

/-- A `ReseauRoutier` object: `routes` models the dict `{nom: Route}`
(insertion-ordered, keyed by `Route.nom`), `intersections` the dict
`{route_source: [routes_destination]}`, and `historique_trafic` the list of
per-tick snapshots `(timestamp, total_vehicules, densite_moyenne)`. -/
structure ReseauRoutier where
  routes : List Route
  intersections : List (String × List String)
  historique_trafic : List (ℕ × ℕ × ℚ)

/-- `ReseauRoutier.get_route(nom)`: dict lookup by route name. -/
def getRoute (routes : List Route) (nom_route : String) : Option Route :=
  routes.find? (fun r => decide (r.nom = nom_route))

/-- Assignment to the dict entry named `nom` (the entry keeps its place;
route names are unique, dict keys). -/
def routesMaj (routes : List Route) (nom : String) (r : Route) : List Route :=
  routes.map (fun x => if x.nom = nom then r else x)

/-- `ReseauRoutier.get_routes_destination(route_source)`: the destination list
of the source route, `[]` when absent. -/
def getRoutesDestination (intersections : List (String × List String))
    (route_source : String) : List String :=
  ((intersections.find? (fun p => decide (p.1 = route_source))).map Prod.snd).getD []

/-- `ReseauRoutier.get_nombre_total_vehicules`. -/
def getNombreTotalVehicules (routes : List Route) : ℕ :=
  routes.foldl (fun total r => total + r.get_nombre_vehicules) 0

/-- `ReseauRoutier.get_densite_trafic_moyenne`. -/
def getDensiteTraficMoyenne (routes : List Route) : ℚ :=
  if routes.isEmpty then 0
  else (routes.foldl (fun total r => total + r.get_densite_trafic) 0) / (routes.length : ℚ)

/-- The body of the `for vehicule in vehicules_sortis` loop of
`ReseauRoutier.mettre_a_jour_reseau`: look up the source route's destination
list; if non-empty, take its first element; if that route exists, move the
vehicle there at position 0 (`changer_de_route`), insert it
(`ajouter_vehicule`) and count one route change. -/
def transfererVehicule (routes : List Route) (intersections : List (String × List String))
    (nom_route : String) (vehicule : Vehicule) (changements : ℕ) : List Route × ℕ :=
  match getRoutesDestination intersections nom_route with
  | [] => (routes, changements)
  | nouvelle_route :: _ =>
    match getRoute routes nouvelle_route with
    | none => (routes, changements)
    | some route_dest =>
        let v := vehicule.changer_de_route nouvelle_route 0
        (routesMaj routes nouvelle_route (route_dest.ajouter_vehicule v), changements + 1)

/-- The body of the `for nom_route, route in self.routes.items()` loop of
`ReseauRoutier.mettre_a_jour_reseau`, acting on
(routes, changements_route, vehicules_sortis). -/
def traiterRoute (intersections : List (String × List String))
    (st : List Route × ℕ × ℕ) (nom_route : String) : List Route × ℕ × ℕ :=
  match getRoute st.1 nom_route with
  | none => st
  | some route =>
      let p := route.mettre_a_jour_vehicules 1
      let routes1 := routesMaj st.1 nom_route p.1
      let q := p.2.foldl
        (fun (acc : List Route × ℕ) vehicule =>
          transfererVehicule acc.1 intersections nom_route vehicule acc.2)
        (routes1, st.2.1)
      (q.1, q.2, st.2.2 + p.2.length)

/-- `ReseauRoutier.mettre_a_jour_reseau()`: update every route in dict order
with `dt = 1.0` (the keys are snapshot before the loop and never change
during it), routing each exited vehicle; then append a traffic snapshot to
the history.  Returns the new network and the stats
`(changements_route, vehicules_sortis)`. -/
def ReseauRoutier.mettre_a_jour_reseau (res : ReseauRoutier) : ReseauRoutier × ℕ × ℕ :=
  let noms := res.routes.map (fun r => r.nom)
  let st := noms.foldl (traiterRoute res.intersections) (res.routes, 0, 0)
  let etat_trafic := (res.historique_trafic.length, getNombreTotalVehicules st.1,
      getDensiteTraficMoyenne st.1)
  ({ routes := st.1, intersections := res.intersections,
     historique_trafic := res.historique_trafic ++ [etat_trafic] }, st.2)

/-! ### Kinematics kernels (`core/fast_numba.py`, `core/numba_helpers.py`) -/

/-- The body of the `for i in range(n)` loop of `update_positions_py`
(`core/fast_numba.py`).  The random draws of the source
(`random.uniform(0.7, 1.1)` and `random.random() < 0.1`) are passed in as
the per-vehicle lists `variations` and `flags`; the loop state is the pair
(`new_positions`, `new_speeds`), the copies mutated in place.  Out-of-range
indexing (impossible for same-length inputs) defaults to `0`/`false`. -/
def pasPy (positions limits lengths densities variations : List ℚ)
    (flags : List Bool) (delta_t : ℚ) (st : List ℚ × List ℚ) (i : ℕ) : List ℚ × List ℚ :=
  let v0 := st.2.getD i 0
  let v := if v0 = 0 then limits.getD i 0 * 0.8 else v0
  let vitesse_ms := v / 3.6
  let distance0 := vitesse_ms * delta_t
  let distance1 := distance0 * variations.getD i 0
  let distance2 :=
    if densities.getD i 0 > 20 then distance1 * 0.8
    else if positions.getD i 0 > lengths.getD i 0 * 0.8 then distance1 * 0.6
    else distance1
  let distance_max := lengths.getD i 0 - positions.getD i 0
  let distance3 := if distance2 > distance_max then distance_max else distance2
  let np := st.1.set i (positions.getD i 0 + distance3)
  let ns :=
    if flags.getD i false then
      if densities.getD i 0 < 10 then st.2.set i (min (limits.getD i 0) (st.2.getD i 0 * 1.05))
      else if densities.getD i 0 > 25 then st.2.set i (max 20 (st.2.getD i 0 * 0.9))
      else st.2
    else st.2
  (np, ns)

/-- `update_positions_py` (`core/fast_numba.py`): reference sequential kernel.
Starts from copies of the inputs (`positions[:]`, `speeds[:]`) and runs the
loop body for `i = 0 .. n-1`. -/
def update_positions_py (positions speeds limits lengths densities variations : List ℚ)
    (flags : List Bool) (delta_t : ℚ) : List ℚ × List ℚ :=
  (List.range positions.length).foldl
    (pasPy positions limits lengths densities variations flags delta_t)
    (positions, speeds)

/-- The body of the `for i in range(n)` loop of `update_positions_numba`
(`core/numba_helpers.py`): identical formulas, but reading positions and
speeds from the in-place mutated arrays (the loop state). -/
def pasNumba (limits lengths densities variations : List ℚ) (rand_flags : List Bool)
    (delta_t : ℚ) (st : List ℚ × List ℚ) (i : ℕ) : List ℚ × List ℚ :=
  let v0 := st.2.getD i 0
  let v := if v0 = 0 then limits.getD i 0 * 0.8 else v0
  let vitesse_ms := v / 3.6
  let distance0 := vitesse_ms * delta_t
  let distance1 := distance0 * variations.getD i 0
  let distance2 :=
    if densities.getD i 0 > 20 then distance1 * 0.8
    else if st.1.getD i 0 > lengths.getD i 0 * 0.8 then distance1 * 0.6
    else distance1
  let distance_max := lengths.getD i 0 - st.1.getD i 0
  let distance3 := if distance2 > distance_max then distance_max else distance2
  let np := st.1.set i (st.1.getD i 0 + distance3)
  let ns :=
    if rand_flags.getD i false then
      if densities.getD i 0 < 10 then st.2.set i (min (limits.getD i 0) (st.2.getD i 0 * 1.05))
      else if densities.getD i 0 > 25 then st.2.set i (max 20 (st.2.getD i 0 * 0.9))
      else st.2
    else st.2
  (np, ns)

/-- `update_positions_numba` (`core/numba_helpers.py`): accelerated kernel.
Mutates the input arrays in place (`n = positions.shape[0]`), with the
variation factors and adaptation flags supplied by the caller
(`update_positions` draws them before the call). -/
def update_positions_numba (positions speeds limits lengths densities variations : List ℚ)
    (rand_flags : List Bool) (delta_t : ℚ) : List ℚ × List ℚ :=
  (List.range positions.length).foldl
    (pasNumba limits lengths densities variations rand_flags delta_t)
    (positions, speeds)

/-! ### Derived notions used by the theorems -/

/-- Total duration of one full light cycle (`get_cycle_total` on the cycle map). -/
def totalCycle (c : Etat → ℚ) : ℚ := c rouge + c vert + c orange

/-- Time offset of a state's start inside one cycle, following
`ordre_etats = ['rouge', 'vert', 'orange']`. -/
def decalage (c : Etat → ℚ) : Etat → ℚ
  | rouge => 0
  | vert => c rouge
  | orange => c rouge + c vert

/-- Position of a light inside its cycle: state offset plus elapsed time.
Two normalized lights with the same cycle and the same phase are equal. -/
def phase (f : FeuRouge) : ℚ := decalage f.cycle f.etat_actuel + f.temps_ecoule

/-- A sequence of successive `avancer_temps` calls. -/
def FeuRouge.avancer_liste (f : FeuRouge) (dts : List ℚ) : FeuRouge :=
  dts.foldl FeuRouge.avancer_temps f

/-- The light of the C5 scenario: `FeuRouge(cycle=c)` with `c ≥ 1000`. -/
def feuScenario (c : ℚ) : FeuRouge := FeuRouge.init (CycleArg.nombre c)

/-- The route of the C5 scenario: length 1000 m, limit 90 km/h, one vehicle at
position 0 with speed 72 km/h, one light at position 100 m. -/
def routeScenario (c : ℚ) : Route :=
  { nom := "R", longueur := 1000, limite_vitesse := 90,
    vehicules_presents := [{ identifiant := 1, route_actuelle := "R", position := 0,
                             vitesse := 72, historique_routes := ["R"] }],
    feux_rouges := [(100, feuScenario c)] }

/-- The C5 scenario after `n` route ticks of `dt = 10`. -/
def etatScenario (c : ℚ) : ℕ → Route
  | 0 => routeScenario c
  | n + 1 => ((etatScenario c n).mettre_a_jour_vehicules 10).1

/-- The vehicle positions of the C5 scenario after `n` ticks. -/
def positionsScenario (c : ℚ) (n : ℕ) : List ℚ :=
  (etatScenario c n).vehicules_presents.map (fun v => v.position)

/-- Concrete network for C4/C10: route A (length 10, limit 50) holds vehicle 1
at position 8 with speed 36 km/h; route B (length 10, limit 50) already holds
a distinct vehicle that also has identifier 1; A's destinations are [B]. -/
def routeA : Route :=
  { nom := "A", longueur := 10, limite_vitesse := 50,
    vehicules_presents := [{ identifiant := 1, route_actuelle := "A", position := 8,
                             vitesse := 36, historique_routes := ["A"] }],
    feux_rouges := [] }

/-- Route B of the concrete C4/C10 network, with the blocking resident. -/
def routeB : Route :=
  { nom := "B", longueur := 10, limite_vitesse := 50,
    vehicules_presents := [{ identifiant := 1, route_actuelle := "B", position := 0,
                             vitesse := 0, historique_routes := ["B"] }],
    feux_rouges := [] }

/-- The concrete C4/C10 network. -/
def reseauExemple : ReseauRoutier :=
  { routes := [routeA, routeB],
    intersections := [("A", ["B"]), ("B", [])],
    historique_trafic := [] }

/-- Concrete route for the C8 counterexample: length 1000 m, limit 90 km/h,
no lights, one vehicle at position 0 whose current speed is 0 km/h. -/
def routeC8 : Route :=
  { nom := "C", longueur := 1000, limite_vitesse := 90,
    vehicules_presents := [{ identifiant := 7, route_actuelle := "C", position := 0,
                             vitesse := 0, historique_routes := ["C"] }],
    feux_rouges := [] }

/-! ### Theorems: the traffic-light state machine -/

theorem cycleMin_pos (c : Etat → ℚ) (hv : ∀ e, 0 < c e) : 0 < cycleMin c :=
  lt_min (hv rouge) (lt_min (hv vert) (hv orange))

/-- Characterization of the `while` loop: it stops below the current state's
duration, keeps the time non-negative, and conserves the phase modulo one
full cycle (no time is dropped). -/
theorem boucle_spec (c : Etat → ℚ) (h : 0 < cycleMin c) (e : Etat) (t : ℚ) :
    (boucle c h e t).2 < c (boucle c h e t).1 ∧
    (0 ≤ t → 0 ≤ (boucle c h e t).2) ∧
    ∃ k : ℕ, decalage c e + t =
      decalage c (boucle c h e t).1 + (boucle c h e t).2 + k * totalCycle c := by
  induction e, t using boucle.induct c h with
  | case1 e t hc ih =>
    have hrw : boucle c h e t = boucle c h (suivant e) (t - c e) := by
      rw [boucle]; exact dif_pos hc
    rw [hrw]
    obtain ⟨h1, h2, k, hk⟩ := ih
    refine ⟨h1, fun _ => h2 (sub_nonneg.mpr hc), ?_⟩
    cases e with
    | rouge => exact ⟨k, by simp [decalage, suivant] at hk ⊢; linarith⟩
    | vert => exact ⟨k, by simp [decalage, suivant] at hk ⊢; linarith⟩
    | orange =>
        refine ⟨k + 1, ?_⟩
        simp [decalage, suivant] at hk ⊢
        push_cast
        simp [totalCycle] at hk ⊢
        linarith
  | case2 e t hc =>
    have hrw : boucle c h e t = (e, t) := by
      rw [boucle]; exact dif_neg hc
    rw [hrw]
    exact ⟨lt_of_not_le hc, fun ht => ht, 0, by simp⟩

/-- `avancer_temps` on a non-negative `dt`: the cycle map is unchanged, the
invariant `elapsed < duration(current)` is (re-)established, non-negativity
of the elapsed time is preserved, and the phase advances by exactly `dt`
modulo one full cycle. -/
theorem avancer_temps_spec (f : FeuRouge) (dt : ℚ) (hv : ∀ e, 0 < f.cycle e) (hdt : 0 ≤ dt) :
    (f.avancer_temps dt).cycle = f.cycle ∧
    (f.avancer_temps dt).temps_ecoule < f.cycle (f.avancer_temps dt).etat_actuel ∧
    (0 ≤ f.temps_ecoule → 0 ≤ (f.avancer_temps dt).temps_ecoule) ∧
    ∃ k : ℕ, phase f + dt = phase (f.avancer_temps dt) + k * totalCycle f.cycle := by
  have hm := cycleMin_pos f.cycle hv
  have hrw : f.avancer_temps dt =
      { f with etat_actuel := (boucle f.cycle hm f.etat_actuel (f.temps_ecoule + dt)).1,
               temps_ecoule := (boucle f.cycle hm f.etat_actuel (f.temps_ecoule + dt)).2 } := by
    unfold FeuRouge.avancer_temps
    rw [if_neg (not_lt.mpr hdt), dif_pos hm]
  rw [hrw]
  obtain ⟨h1, h2, k, hk⟩ := boucle_spec f.cycle hm f.etat_actuel (f.temps_ecoule + dt)
  refine ⟨rfl, h1, fun ht => h2 (by linarith), k, ?_⟩
  simp [phase]
  linarith [hk]

/-- `avancer_liste` on non-negative durations: cycle unchanged, invariant
maintained, phase advanced by the total elapsed time modulo full cycles. -/
theorem avancer_liste_spec (dts : List ℚ) : ∀ (f : FeuRouge), (∀ e, 0 < f.cycle e) →
    (∀ d ∈ dts, 0 ≤ d) → 0 ≤ f.temps_ecoule → f.temps_ecoule < f.cycle f.etat_actuel →
    (f.avancer_liste dts).cycle = f.cycle ∧
    0 ≤ (f.avancer_liste dts).temps_ecoule ∧
    (f.avancer_liste dts).temps_ecoule < f.cycle (f.avancer_liste dts).etat_actuel ∧
    ∃ k : ℕ, phase f + dts.sum = phase (f.avancer_liste dts) + k * totalCycle f.cycle := by
  induction dts with
  | nil =>
      intro f hv _ ht0 hinv
      exact ⟨rfl, ht0, hinv, 0, by simp [FeuRouge.avancer_liste]⟩
  | cons d rest ih =>
      intro f hv hdts ht0 hinv
      have hd : 0 ≤ d := hdts d (List.mem_cons_self d rest)
      obtain ⟨hc1, hi1, hp1, k1, hk1⟩ := avancer_temps_spec f d hv hd
      have hrest : ∀ x ∈ rest, 0 ≤ x := fun x hx => hdts x (List.mem_cons_of_mem d hx)
      have hv' : ∀ e, 0 < (f.avancer_temps d).cycle e := by rw [hc1]; exact hv
      have hinv' : (f.avancer_temps d).temps_ecoule <
          (f.avancer_temps d).cycle (f.avancer_temps d).etat_actuel := by rw [hc1]; exact hi1
      obtain ⟨hc2, hg2, hl2, k2, hk2⟩ := ih (f.avancer_temps d) hv' hrest (hp1 ht0) hinv'
      have hfold : f.avancer_liste (d :: rest) = (f.avancer_temps d).avancer_liste rest := rfl
      rw [hfold]
      refine ⟨hc2.trans hc1, hg2, by rw [← hc1]; exact hl2, k1 + k2, ?_⟩
      rw [hc1] at hk2
      push_cast
      have hsum : (d :: rest).sum = d + rest.sum := by simp
      rw [hsum]
      linarith [hk1, hk2]

/-- A normalized light's phase lies in `[0, totalCycle)`. -/
theorem phase_bornes (f : FeuRouge) (hv : ∀ e, 0 < f.cycle e) (ht0 : 0 ≤ f.temps_ecoule)
    (hinv : f.temps_ecoule < f.cycle f.etat_actuel) :
    0 ≤ phase f ∧ phase f < totalCycle f.cycle := by
  have hr := hv rouge
  have hg := hv vert
  have ho := hv orange
  cases h : f.etat_actuel <;>
    simp [phase, totalCycle, decalage, h] at hinv ⊢ <;> constructor <;> linarith [hinv]

/-- The phase determines a normalized light's state and elapsed time. -/
theorem phase_inj (c : Etat → ℚ) (hv : ∀ e, 0 < c e) (e e' : Etat) (t t' : ℚ)
    (h1 : 0 ≤ t) (h2 : t < c e) (h3 : 0 ≤ t') (h4 : t' < c e')
    (heq : decalage c e + t = decalage c e' + t') : e = e' ∧ t = t' := by
  have hr := hv rouge
  have hg := hv vert
  have ho := hv orange
  cases e <;> cases e' <;> simp [decalage] at heq h2 h4 ⊢ <;> linarith

/-- Advancing a normalized light by durations summing to exactly one full
cycle returns it to its starting state and elapsed time. -/
theorem avancer_liste_cycle_complet (f : FeuRouge) (dts : List ℚ)
    (hv : ∀ e, 0 < f.cycle e) (ht0 : 0 ≤ f.temps_ecoule)
    (hinv : f.temps_ecoule < f.cycle f.etat_actuel)
    (hdts : ∀ d ∈ dts, 0 ≤ d) (hsum : dts.sum = f.get_cycle_total) :
    f.avancer_liste dts = f := by
  obtain ⟨hc, hg0, hlt, k, hk⟩ := avancer_liste_spec dts f hv hdts ht0 hinv
  set g := f.avancer_liste dts with hgdef
  have hT : f.get_cycle_total = totalCycle f.cycle := rfl
  rw [hsum, hT] at hk
  have hb1 := phase_bornes f hv ht0 hinv
  have hv' : ∀ e, 0 < g.cycle e := by rw [hc]; exact hv
  have hlt' : g.temps_ecoule < g.cycle g.etat_actuel := by rw [hc]; exact hlt
  have hb2 := phase_bornes g hv' hg0 hlt'
  rw [hc] at hb2
  have hT0 : 0 < totalCycle f.cycle := by
    have := hv rouge; have := hv vert; have := hv orange
    simp [totalCycle]; linarith
  have hphase : phase f = phase g := by
    match k with
    | 0 => push_cast at hk; linarith [hb1.1, hb2.2]
    | 1 => push_cast at hk; linarith
    | (n + 2) =>
        exfalso
        have : ((n : ℚ) + 2) * totalCycle f.cycle ≥ 2 * totalCycle f.cycle := by
          have hn : (0 : ℚ) ≤ (n : ℚ) := by positivity
          nlinarith
        push_cast at hk
        nlinarith [hb1.2, hb2.1]
  have hlt2 : g.temps_ecoule < f.cycle g.etat_actuel := by rw [← hc]; exact hlt'
  have hmain := phase_inj f.cycle hv g.etat_actuel f.etat_actuel g.temps_ecoule f.temps_ecoule
    hg0 hlt2 ht0 hinv (by simp [phase] at hphase; rw [hc] at hphase; linarith)
  obtain ⟨he, ht⟩ := hmain
  calc g = ⟨g.cycle, g.etat_actuel, g.temps_ecoule⟩ := rfl
  _ = ⟨f.cycle, f.etat_actuel, f.temps_ecoule⟩ := by rw [hc, he, ht]
  _ = f := rfl

theorem boucle_zero (c : Etat → ℚ) (h : 0 < cycleMin c) (e : Etat) (t : ℚ)
    (hlt : t < c e) : boucle c h e t = (e, t) := by
  rw [boucle]; exact dif_neg (not_le.mpr hlt)

theorem boucle_un (c : Etat → ℚ) (h : 0 < cycleMin c) (e : Etat) (t : ℚ)
    (hge : c e ≤ t) (hlt : t - c e < c (suivant e)) :
    boucle c h e t = (suivant e, t - c e) := by
  rw [boucle, dif_pos hge]
  exact boucle_zero c h (suivant e) (t - c e) hlt

theorem avancer_temps_eq (f : FeuRouge) (dt : ℚ) (hm : 0 < cycleMin f.cycle)
    (hdt : ¬ dt < 0) :
    f.avancer_temps dt =
      ⟨f.cycle, (boucle f.cycle hm f.etat_actuel (f.temps_ecoule + dt)).1,
        (boucle f.cycle hm f.etat_actuel (f.temps_ecoule + dt)).2⟩ := by
  unfold FeuRouge.avancer_temps
  rw [if_neg hdt, dif_pos hm]

/-- One `avancer_temps` call on a uniform 5-second light, without overflow. -/
theorem avancer_cinq_zero (e : Etat) (t dt : ℚ) (h0 : ¬ dt < 0) (h1 : t + dt < 5) :
    FeuRouge.avancer_temps ⟨fun _ => 5, e, t⟩ dt = ⟨fun _ => 5, e, t + dt⟩ := by
  have hm : 0 < cycleMin (fun _ => (5 : ℚ)) := by norm_num [cycleMin]
  rw [avancer_temps_eq ⟨fun _ => 5, e, t⟩ dt hm h0]
  rw [boucle_zero _ hm e (t + dt) h1]

/-- One `avancer_temps` call on a uniform 5-second light, with exactly one
state transition. -/
theorem avancer_cinq_un (e : Etat) (t dt : ℚ) (h0 : ¬ dt < 0) (h1 : 5 ≤ t + dt)
    (h2 : t + dt < 10) :
    FeuRouge.avancer_temps ⟨fun _ => 5, e, t⟩ dt = ⟨fun _ => 5, suivant e, t + dt - 5⟩ := by
  have hm : 0 < cycleMin (fun _ => (5 : ℚ)) := by norm_num [cycleMin]
  rw [avancer_temps_eq ⟨fun _ => 5, e, t⟩ dt hm h0]
  rw [boucle_un _ hm e (t + dt) h1 (by norm_num; linarith)]

/-- **C2.** For every traffic light (with the positive state durations that
`FeuRouge.__init__` always establishes) and every `dt`: if `dt < 0`,
`avancer_temps` reports the error and leaves both the current state and the
elapsed time unchanged; if `dt ≥ 0`, after `avancer_temps` the elapsed time is
strictly less than the duration of the (possibly new) current state, and the
overflow is folded forward through whole `rouge → vert → orange → rouge`
transitions, never dropped: the phase advances by exactly `dt` modulo full
cycles. -/
theorem C2_invariant_avancer_temps (f : FeuRouge) (dt : ℚ) (hv : ∀ e, 0 < f.cycle e) :
    (dt < 0 → f.avancer_temps dt = f) ∧
    (0 ≤ dt →
      (f.avancer_temps dt).temps_ecoule <
        (f.avancer_temps dt).cycle (f.avancer_temps dt).etat_actuel ∧
      ∃ k : ℕ, phase f + dt = phase (f.avancer_temps dt) + k * totalCycle f.cycle) := by
  constructor
  · intro hneg
    unfold FeuRouge.avancer_temps
    rw [if_pos hneg]
  · intro hdt
    obtain ⟨hc, hi, _, k, hk⟩ := avancer_temps_spec f dt hv hdt
    exact ⟨by rw [hc]; exact hi, k, hk⟩

/-- Witness for C2 at the fresh uniform 5-second light and `dt = 7`. -/
theorem C2_invariant_avancer_temps_temoin :
    ((7 : ℚ) < 0 →
      (FeuRouge.init (CycleArg.nombre 5)).avancer_temps 7 = FeuRouge.init (CycleArg.nombre 5)) ∧
    ((0 : ℚ) ≤ 7 →
      ((FeuRouge.init (CycleArg.nombre 5)).avancer_temps 7).temps_ecoule <
        ((FeuRouge.init (CycleArg.nombre 5)).avancer_temps 7).cycle
          ((FeuRouge.init (CycleArg.nombre 5)).avancer_temps 7).etat_actuel ∧
      ∃ k : ℕ, phase (FeuRouge.init (CycleArg.nombre 5)) + 7 =
        phase ((FeuRouge.init (CycleArg.nombre 5)).avancer_temps 7) +
          k * totalCycle (FeuRouge.init (CycleArg.nombre 5)).cycle) :=
  C2_invariant_avancer_temps (FeuRouge.init (CycleArg.nombre 5)) 7 (by decide)

/-- **C3.** For every light cycle, a sequence of `avancer_temps` calls whose
durations sum to exactly one full cycle returns a normalized light to its
original state and elapsed time; concretely, the fresh uniform 5-second light
given five successive calls of 3 seconds passes through
rouge, vert, vert, orange, rouge and returns to its initial configuration. -/
theorem C3_aller_retour_cycle :
    (∀ (f : FeuRouge) (dts : List ℚ), (∀ e, 0 < f.cycle e) → 0 ≤ f.temps_ecoule →
      f.temps_ecoule < f.cycle f.etat_actuel → (∀ d ∈ dts, 0 ≤ d) →
      dts.sum = f.get_cycle_total → f.avancer_liste dts = f) ∧
    ([((FeuRouge.init (CycleArg.nombre 5)).avancer_liste [3]).etat_actuel,
      ((FeuRouge.init (CycleArg.nombre 5)).avancer_liste [3, 3]).etat_actuel,
      ((FeuRouge.init (CycleArg.nombre 5)).avancer_liste [3, 3, 3]).etat_actuel,
      ((FeuRouge.init (CycleArg.nombre 5)).avancer_liste [3, 3, 3, 3]).etat_actuel,
      ((FeuRouge.init (CycleArg.nombre 5)).avancer_liste [3, 3, 3, 3, 3]).etat_actuel] =
        [rouge, vert, vert, orange, rouge] ∧
     (FeuRouge.init (CycleArg.nombre 5)).avancer_liste [3, 3, 3, 3, 3] =
       FeuRouge.init (CycleArg.nombre 5)) := by
  have h0 : FeuRouge.init (CycleArg.nombre 5) = ⟨fun _ => 5, rouge, 0⟩ := by
    norm_num [FeuRouge.init]
  have s1 : FeuRouge.avancer_temps ⟨fun _ => 5, rouge, 0⟩ 3 = ⟨fun _ => 5, rouge, 3⟩ := by
    rw [avancer_cinq_zero rouge 0 3 (by norm_num) (by norm_num)]; norm_num
  have s2 : FeuRouge.avancer_temps ⟨fun _ => 5, rouge, 3⟩ 3 = ⟨fun _ => 5, vert, 1⟩ := by
    rw [avancer_cinq_un rouge 3 3 (by norm_num) (by norm_num) (by norm_num)]
    norm_num [suivant]
  have s3 : FeuRouge.avancer_temps ⟨fun _ => 5, vert, 1⟩ 3 = ⟨fun _ => 5, vert, 4⟩ := by
    rw [avancer_cinq_zero vert 1 3 (by norm_num) (by norm_num)]; norm_num
  have s4 : FeuRouge.avancer_temps ⟨fun _ => 5, vert, 4⟩ 3 = ⟨fun _ => 5, orange, 2⟩ := by
    rw [avancer_cinq_un vert 4 3 (by norm_num) (by norm_num) (by norm_num)]
    norm_num [suivant]
  have s5 : FeuRouge.avancer_temps ⟨fun _ => 5, orange, 2⟩ 3 = ⟨fun _ => 5, rouge, 0⟩ := by
    rw [avancer_cinq_un orange 2 3 (by norm_num) (by norm_num) (by norm_num)]
    norm_num [suivant]
  refine ⟨fun f dts hv ht0 hinv hdts hsum =>
    avancer_liste_cycle_complet f dts hv ht0 hinv hdts hsum, ?_, ?_⟩
  · simp only [FeuRouge.avancer_liste, List.foldl, h0, s1, s2, s3, s4, s5]
  · simp only [FeuRouge.avancer_liste, List.foldl, h0, s1, s2, s3, s4, s5]

/-- Witness for C3's general part: the fresh 5-second light advanced by a
single call of 15 seconds (one full cycle) returns to its initial state. -/
theorem C3_aller_retour_cycle_temoin :
    (FeuRouge.init (CycleArg.nombre 5)).avancer_liste [15] =
      FeuRouge.init (CycleArg.nombre 5) :=
  C3_aller_retour_cycle.1 (FeuRouge.init (CycleArg.nombre 5)) [15] (by decide) (by decide)
    (by decide) (by decide)
    (by norm_num [FeuRouge.init, FeuRouge.get_cycle_total])

/-! ### Theorems: obstacle resolution (C1) -/

/-- The guarded in-place lowering of `_get_distance_avant_obstacle` agrees,
step by step, with the `min`/`max` form of the spec's `max_allowed_travel`,
and keeps the running value non-negative. -/
theorem clamp_fold_eq (v : Vehicule) (d : ℚ) (l : List (ℚ × FeuRouge)) :
    ∀ (dp : ℚ), 0 ≤ dp →
    0 ≤ l.foldl
      (fun distance_possible pf =>
        if v.position < pf.1 ∧ pf.1 ≤ v.position + d then
          if pf.2.etat_actuel = rouge ∨ pf.2.etat_actuel = orange then
            if pf.1 - v.position - 5 < distance_possible then max 0 (pf.1 - v.position - 5)
            else distance_possible
          else distance_possible
        else distance_possible) dp ∧
    l.foldl
      (fun distance_possible pf =>
        if v.position < pf.1 ∧ pf.1 ≤ v.position + d then
          if pf.2.etat_actuel = rouge ∨ pf.2.etat_actuel = orange then
            if pf.1 - v.position - 5 < distance_possible then max 0 (pf.1 - v.position - 5)
            else distance_possible
          else distance_possible
        else distance_possible) dp =
    l.foldl
      (fun allowed pf =>
        if v.position < pf.1 ∧ pf.1 ≤ v.position + d then
          if pf.2.etat_actuel = rouge ∨ pf.2.etat_actuel = orange then
            min allowed (max 0 (pf.1 - v.position - 5))
          else allowed
        else allowed) dp := by
  induction l with
  | nil => exact fun dp h => ⟨h, rfl⟩
  | cons pf rest ih =>
      intro dp h
      simp only [List.foldl]
      have hstep_nonneg : 0 ≤
          (if v.position < pf.1 ∧ pf.1 ≤ v.position + d then
            if pf.2.etat_actuel = rouge ∨ pf.2.etat_actuel = orange then
              if pf.1 - v.position - 5 < dp then max 0 (pf.1 - v.position - 5) else dp
            else dp
          else dp) := by
        by_cases hA : v.position < pf.1 ∧ pf.1 ≤ v.position + d
        · by_cases hR : pf.2.etat_actuel = rouge ∨ pf.2.etat_actuel = orange
          · simp only [if_pos hA, if_pos hR]
            rcases lt_or_le (pf.1 - v.position - 5) dp with hb | hb
            · rw [if_pos hb]; exact le_max_left 0 _
            · rw [if_neg (not_lt.mpr hb)]; exact h
          · simp only [if_pos hA, if_neg hR]; exact h
        · simp only [if_neg hA]; exact h
      have hstep_eq :
          (if v.position < pf.1 ∧ pf.1 ≤ v.position + d then
            if pf.2.etat_actuel = rouge ∨ pf.2.etat_actuel = orange then
              if pf.1 - v.position - 5 < dp then max 0 (pf.1 - v.position - 5) else dp
            else dp
          else dp) =
          (if v.position < pf.1 ∧ pf.1 ≤ v.position + d then
            if pf.2.etat_actuel = rouge ∨ pf.2.etat_actuel = orange then
              min dp (max 0 (pf.1 - v.position - 5))
            else dp
          else dp) := by
        by_cases hA : v.position < pf.1 ∧ pf.1 ≤ v.position + d
        · by_cases hR : pf.2.etat_actuel = rouge ∨ pf.2.etat_actuel = orange
          · simp only [if_pos hA, if_pos hR]
            rcases lt_or_le (pf.1 - v.position - 5) dp with hb | hb
            · rw [if_pos hb, min_eq_right (max_le h hb.le)]
            · rw [if_neg (not_lt.mpr hb),
                min_eq_left (hb.trans (le_max_right 0 _))]
          · simp only [if_pos hA, if_neg hR]
        · simp only [if_neg hA]
      rw [← hstep_eq]
      exact ih _ hstep_nonneg

/-- Shared form of the C1 equivalence, used by later route-tick theorems. -/
theorem clamp_eq_spec (r : Route) (v : Vehicule) (d : ℚ) (hd : 0 ≤ d) :
    0 ≤ r.get_distance_avant_obstacle v d ∧
    r.get_distance_avant_obstacle v d = max_allowed_travel r v d := by
  obtain ⟨hnn, heq⟩ := clamp_fold_eq v d r.feux_rouges d hd
  unfold Route.get_distance_avant_obstacle max_allowed_travel
  simp only
  rw [heq] at hnn ⊢
  constructor
  · rcases lt_or_le (r.longueur - v.position) _ with hf | hf
    · rw [if_pos hf]; exact le_max_left 0 _
    · rw [if_neg (not_lt.mpr hf)]; exact hnn
  · rcases lt_or_le (r.longueur - v.position) _ with hf | hf
    · rw [if_pos hf, min_eq_right hf.le, max_comm]
    · rw [if_neg (not_lt.mpr hf), min_eq_left hf, max_eq_right hnn]

/-- **C1.** For every vehicle, route and proposed distance `d ≥ 0`, the
obstacle clamp `_get_distance_avant_obstacle` is non-negative and equals the
spec's `max_allowed_travel`: the minimum of `d`, of
`max(0, p − position − 5)` for every red/amber light at `p` with
`position < p ≤ position + d` (each light an independent bound, green lights
imposing none), and of the remaining length, clamped at `0`. -/
theorem C1_clamp_obstacle (r : Route) (v : Vehicule) (d : ℚ) (hd : 0 ≤ d) :
    0 ≤ r.get_distance_avant_obstacle v d ∧
    r.get_distance_avant_obstacle v d = max_allowed_travel r v d :=
  clamp_eq_spec r v d hd

/-- Witness for C1: a route with a red light at 50 m, a green light at 30 m
and an amber light at 90 m, vehicle at position 10 with proposal 100. -/
theorem C1_clamp_obstacle_temoin :
    (0 : ℚ) ≤ Route.get_distance_avant_obstacle
      { nom := "T", longueur := 1000, limite_vitesse := 90, vehicules_presents := [],
        feux_rouges := [(50, ⟨fun _ => 9, rouge, 0⟩), (30, ⟨fun _ => 9, vert, 0⟩),
                        (90, ⟨fun _ => 9, orange, 0⟩)] }
      { identifiant := 3, route_actuelle := "T", position := 10, vitesse := 50,
        historique_routes := ["T"] } 100 ∧
    Route.get_distance_avant_obstacle
      { nom := "T", longueur := 1000, limite_vitesse := 90, vehicules_presents := [],
        feux_rouges := [(50, ⟨fun _ => 9, rouge, 0⟩), (30, ⟨fun _ => 9, vert, 0⟩),
                        (90, ⟨fun _ => 9, orange, 0⟩)] }
      { identifiant := 3, route_actuelle := "T", position := 10, vitesse := 50,
        historique_routes := ["T"] } 100 =
    max_allowed_travel
      { nom := "T", longueur := 1000, limite_vitesse := 90, vehicules_presents := [],
        feux_rouges := [(50, ⟨fun _ => 9, rouge, 0⟩), (30, ⟨fun _ => 9, vert, 0⟩),
                        (90, ⟨fun _ => 9, orange, 0⟩)] }
      { identifiant := 3, route_actuelle := "T", position := 10, vitesse := 50,
        historique_routes := ["T"] } 100 :=
  C1_clamp_obstacle _ _ 100 (by norm_num)

/-! ### Theorems: route tick without vehicles (C7) -/

/-- **C7.** Updating a route with no resident vehicles still advances every
light's internal clock by `dt`, reports the `AucuneMiseAJourPossibleError`
condition without raising to the caller (the embedding returns normally),
returns an empty exited list, and leaves the vehicle map — and every other
route attribute — unchanged. -/
theorem C7_route_vide (r : Route) (dt : ℚ) (h : r.vehicules_presents = []) :
    (r.mettre_a_jour_vehicules dt).2 = [] ∧
    (r.mettre_a_jour_vehicules dt).1.vehicules_presents = r.vehicules_presents ∧
    (r.mettre_a_jour_vehicules dt).1.feux_rouges =
      r.feux_rouges.map (fun pf : ℚ × FeuRouge => (pf.1, pf.2.avancer_temps dt)) ∧
    (r.mettre_a_jour_vehicules dt).1.nom = r.nom ∧
    (r.mettre_a_jour_vehicules dt).1.longueur = r.longueur ∧
    (r.mettre_a_jour_vehicules dt).1.limite_vitesse = r.limite_vitesse := by
  unfold Route.mettre_a_jour_vehicules
  simp [h]

/-- Witness for C7: a concrete route with one light and no vehicles. -/
theorem C7_route_vide_temoin :
    (Route.mettre_a_jour_vehicules
      { nom := "W", longueur := 100, limite_vitesse := 50, vehicules_presents := [],
        feux_rouges := [(20, ⟨fun _ => 5, rouge, 0⟩)] } 3).2 = [] ∧
    (Route.mettre_a_jour_vehicules
      { nom := "W", longueur := 100, limite_vitesse := 50, vehicules_presents := [],
        feux_rouges := [(20, ⟨fun _ => 5, rouge, 0⟩)] } 3).1.vehicules_presents =
      Route.vehicules_presents
        { nom := "W", longueur := 100, limite_vitesse := 50, vehicules_presents := [],
          feux_rouges := [(20, ⟨fun _ => 5, rouge, 0⟩)] } ∧
    (Route.mettre_a_jour_vehicules
      { nom := "W", longueur := 100, limite_vitesse := 50, vehicules_presents := [],
        feux_rouges := [(20, ⟨fun _ => 5, rouge, 0⟩)] } 3).1.feux_rouges =
      List.map (fun pf : ℚ × FeuRouge => (pf.1, pf.2.avancer_temps 3))
        [(20, ⟨fun _ => 5, rouge, 0⟩)] ∧
    (Route.mettre_a_jour_vehicules
      { nom := "W", longueur := 100, limite_vitesse := 50, vehicules_presents := [],
        feux_rouges := [(20, ⟨fun _ => 5, rouge, 0⟩)] } 3).1.nom = "W" ∧
    (Route.mettre_a_jour_vehicules
      { nom := "W", longueur := 100, limite_vitesse := 50, vehicules_presents := [],
        feux_rouges := [(20, ⟨fun _ => 5, rouge, 0⟩)] } 3).1.longueur = 100 ∧
    (Route.mettre_a_jour_vehicules
      { nom := "W", longueur := 100, limite_vitesse := 50, vehicules_presents := [],
        feux_rouges := [(20, ⟨fun _ => 5, rouge, 0⟩)] } 3).1.limite_vitesse = 50 :=
  C7_route_vide
    { nom := "W", longueur := 100, limite_vitesse := 50, vehicules_presents := [],
      feux_rouges := [(20, ⟨fun _ => 5, rouge, 0⟩)] } 3 rfl

/-! ### Theorems: the two vehicle-update paths (C8) -/

theorem avancer_identifiant (v : Vehicule) (d : ℚ) :
    (v.avancer d).identifiant = v.identifiant := by
  unfold Vehicule.avancer
  dsimp only
  split_ifs <;> rfl

theorem deplacer_identifiant (r : Route) (dt : ℚ) (v : Vehicule) :
    (r.deplacer dt v).identifiant = v.identifiant := by
  unfold Route.deplacer
  dsimp only
  split_ifs with h
  · exact avancer_identifiant v _
  · rfl

/-- Counterexample to **C8** as stated.  The route tick takes the desired
distance from the raw current speed (`vitesse * 1000 / 3600 * dt`), not from
the kinematics kernel.  Concretely, on `routeC8` (length 1000 m, limit
90 km/h, no lights) with a vehicle of speed 0 km/h and `dt = 10`: the route
tick leaves the vehicle at position 0, while the kernel
(`update_positions_py`, variation factor 1, no adaptation flag) proposes to
move it to 200 (the zero speed is replaced by `0.8 × limit`), and composing
that proposal with the route's obstacle clamp would also give 200.  So the
route tick's desired distance is not the kernel's proposal. -/
theorem C8_contre_exemple :
    (routeC8.mettre_a_jour_vehicules 10).1.vehicules_presents.map
      (fun v => v.position) = [0] ∧
    update_positions_py [0] [0] [90] [1000] [1] [1] [false] 10 = ([200], [0]) ∧
    Route.get_distance_avant_obstacle routeC8
      { identifiant := 7, route_actuelle := "C", position := 0, vitesse := 0,
        historique_routes := ["C"] } 200 = 200 := by
  refine ⟨?_, ?_, ?_⟩
  · norm_num [Route.mettre_a_jour_vehicules, Route.deplacer, Route.get_distance_avant_obstacle,
      Vehicule.avancer, routeC8, List.isEmpty, List.filter]
  · norm_num [update_positions_py, pasPy, List.range_succ, List.foldl]
  · norm_num [Route.get_distance_avant_obstacle, routeC8]

/-- **C8 (amended).** Inside `Route.mettre_a_jour_vehicules`, every resident
vehicle's desired travel distance is its raw current speed converted to m/s
times `dt` (not a kernel proposal), and that desired distance is clamped
through the route's obstacle resolution (`max_allowed_travel`, over the
already-advanced lights) before the vehicle moves; the moved vehicle — same
identifier, position advanced by exactly the clamped distance — appears
either among the remaining vehicles or among the exited ones.  The kernel
path (`Simulateur._mettre_a_jour_vehicules` calling `update_positions`)
applies kernel distances without light clamping; the source runs the two
paths as separate sequential stages, not as a composition. -/
theorem C8_distance_brute_puis_clamp (r : Route) (dt : ℚ) (v : Vehicule)
    (hv : v ∈ r.vehicules_presents) (hdt : 0 ≤ dt) (hvit : 0 ≤ v.vitesse)
    (hpos : 0 ≤ v.position) :
    ∃ v', (v' ∈ (r.mettre_a_jour_vehicules dt).1.vehicules_presents ∨
           v' ∈ (r.mettre_a_jour_vehicules dt).2) ∧
      v'.identifiant = v.identifiant ∧
      v'.position = v.position +
        max_allowed_travel
          { r with feux_rouges :=
              r.feux_rouges.map (fun pf : ℚ × FeuRouge => (pf.1, pf.2.avancer_temps dt)) }
          v (v.vitesse * 1000 / 3600 * dt) := by
  unfold Route.mettre_a_jour_vehicules
  set r1 : Route :=
    { r with feux_rouges :=
        r.feux_rouges.map (fun pf : ℚ × FeuRouge => (pf.1, pf.2.avancer_temps dt)) } with hr1
  have hvv : v ∈ r1.vehicules_presents := hv
  have hne : r1.vehicules_presents.isEmpty = false := by
    cases hl : r1.vehicules_presents with
    | nil => rw [hl] at hvv; cases hvv
    | cons a l => simp [List.isEmpty]
  rw [if_neg (by rw [hne]; exact Bool.false_ne_true)]
  simp only
  refine ⟨r1.deplacer dt v, ?_, ?_, ?_⟩
  · have hm : r1.deplacer dt v ∈ r1.vehicules_presents.map (r1.deplacer dt) :=
      List.mem_map_of_mem _ hvv
    by_cases hp : r1.longueur ≤ (r1.deplacer dt v).position
    · right
      exact List.mem_filter.mpr ⟨hm, by simp [hp]⟩
    · left
      exact List.mem_filter.mpr ⟨hm, by simp [hp]⟩
  · exact deplacer_identifiant r1 dt v
  · have hd0 : 0 ≤ v.vitesse * 1000 / 3600 * dt := by positivity
    obtain ⟨hnn, heq⟩ := clamp_eq_spec r1 v _ hd0
    unfold Route.deplacer
    simp only
    by_cases hD : 0 < r1.get_distance_avant_obstacle v (v.vitesse * 1000 / 3600 * dt)
    · rw [if_pos hD]
      unfold Vehicule.avancer
      rw [if_neg (not_lt.mpr hnn), if_neg (not_lt.mpr hvit),
        if_neg (not_lt.mpr (by linarith))]
      simp [← heq]
    · rw [if_neg hD]
      have hz : r1.get_distance_avant_obstacle v (v.vitesse * 1000 / 3600 * dt) = 0 :=
        le_antisymm (not_lt.mp hD) hnn
      rw [← heq, hz, add_zero]

/-- Witness for the amended C8 at a concrete route, vehicle and `dt`. -/
theorem C8_distance_brute_puis_clamp_temoin :
    ∃ v', (v' ∈ (Route.mettre_a_jour_vehicules
        { nom := "X", longueur := 100, limite_vitesse := 50,
          vehicules_presents := [{ identifiant := 2, route_actuelle := "X", position := 0,
                                   vitesse := 36, historique_routes := ["X"] }],
          feux_rouges := [] } 1).1.vehicules_presents ∨
           v' ∈ (Route.mettre_a_jour_vehicules
        { nom := "X", longueur := 100, limite_vitesse := 50,
          vehicules_presents := [{ identifiant := 2, route_actuelle := "X", position := 0,
                                   vitesse := 36, historique_routes := ["X"] }],
          feux_rouges := [] } 1).2) ∧
      v'.identifiant = 2 ∧
      v'.position = 0 +
        max_allowed_travel
          { nom := "X", longueur := 100, limite_vitesse := 50,
            vehicules_presents := [{ identifiant := 2, route_actuelle := "X", position := 0,
                                     vitesse := 36, historique_routes := ["X"] }],
            feux_rouges :=
              List.map (fun pf : ℚ × FeuRouge => (pf.1, pf.2.avancer_temps 1)) [] }
          { identifiant := 2, route_actuelle := "X", position := 0, vitesse := 36,
            historique_routes := ["X"] } (36 * 1000 / 3600 * 1) :=
  C8_distance_brute_puis_clamp
    { nom := "X", longueur := 100, limite_vitesse := 50,
      vehicules_presents := [{ identifiant := 2, route_actuelle := "X", position := 0,
                               vitesse := 36, historique_routes := ["X"] }],
      feux_rouges := [] }
    1
    { identifiant := 2, route_actuelle := "X", position := 0, vitesse := 36,
      historique_routes := ["X"] }
    (List.mem_singleton.mpr rfl) (by norm_num) (by norm_num) (by norm_num)

/-! ### Theorems: the red-light convergence scenario (C5) -/

/-- Closed form of the C5 scenario: as long as the light's timer has not
expired (`10·n < c`), after `n` ticks the vehicle sits at 0 (for `n = 0`) or
at exactly 95 m, and the light is still red with elapsed time `10·n`. -/
theorem etatScenario_forme (c : ℚ) (hc : 1000 ≤ c) : ∀ n : ℕ, 10 * (n : ℚ) < c →
    etatScenario c n =
      { nom := "R", longueur := 1000, limite_vitesse := 90,
        vehicules_presents := [{ identifiant := 1, route_actuelle := "R",
                                 position := if n = 0 then 0 else 95, vitesse := 72,
                                 historique_routes := ["R"] }],
        feux_rouges := [(100, ⟨fun _ => c, rouge, 10 * (n : ℚ)⟩)] } := by
  intro n
  induction n with
  | zero =>
      intro _
      have hcz : ¬ c ≤ 0 := by linarith
      simp [etatScenario, routeScenario, feuScenario, FeuRouge.init, hcz]
  | succ n ih =>
      intro h
      have hcast : ((n + 1 : ℕ) : ℚ) = (n : ℚ) + 1 := by push_cast; ring
      have hn : 10 * (n : ℚ) < c := by rw [hcast] at h; linarith
      have hS := ih hn
      rw [show etatScenario c (n + 1) = ((etatScenario c n).mettre_a_jour_vehicules 10).1
        from rfl, hS]
      have hmc : 0 < cycleMin (fun _ => c) := by
        simp [cycleMin]; linarith
      have hlight : FeuRouge.avancer_temps ⟨fun _ => c, rouge, 10 * (n : ℚ)⟩ 10 =
          ⟨fun _ => c, rouge, 10 * (n : ℚ) + 10⟩ := by
        rw [avancer_temps_eq ⟨fun _ => c, rouge, 10 * (n : ℚ)⟩ 10 hmc (by norm_num)]
        rw [boucle_zero (fun _ => c) hmc rouge (10 * (n : ℚ) + 10)
          (by rw [hcast] at h; simp; linarith)]
      have hsucc : ¬ (n + 1 = 0) := Nat.succ_ne_zero n
      by_cases hn0 : n = 0
      · subst hn0
        unfold Route.mettre_a_jour_vehicules
        simp only [List.map, hlight]
        norm_num [List.isEmpty, Route.deplacer, Route.get_distance_avant_obstacle,
          Vehicule.avancer, List.filter, List.foldl]
      · rw [if_neg hn0]
        unfold Route.mettre_a_jour_vehicules
        simp only [List.map, hlight]
        norm_num [List.isEmpty, Route.deplacer, Route.get_distance_avant_obstacle,
          Vehicule.avancer, List.filter, List.foldl, hsucc, hcast]
        ring

/-- **C5.** In the scenario — route of 1000 m, limit 90 km/h, one vehicle at
position 0 with speed 72 km/h, one light at 100 m that stays red throughout
(uniform cycle `c ≥ 1000` s, formalized as the no-expiry premise
`10·n < c`), ticks of `dt = 10` s, route-level update only — across every
number `n` of ticks the vehicle's position never exceeds 95 m, and from the
first tick on it equals exactly 95 m (the light position minus the 5 m
safety margin). -/
theorem C5_convergence_95 (c : ℚ) (n : ℕ) (hc : 1000 ≤ c) (hn : 10 * (n : ℚ) < c) :
    (∀ p ∈ positionsScenario c n, p ≤ 95) ∧
    (1 ≤ n → positionsScenario c n = [95]) := by
  have hS := etatScenario_forme c hc n hn
  have hpos : positionsScenario c n = [if n = 0 then 0 else 95] := by
    rw [positionsScenario, hS]
    simp
  constructor
  · intro p hp
    rw [hpos] at hp
    simp at hp
    by_cases hn0 : n = 0
    · rw [if_pos hn0] at hp; rw [hp]; norm_num
    · rw [if_neg hn0] at hp; rw [hp]
  · intro h1
    have hn0 : ¬ n = 0 := by omega
    rw [hpos, if_neg hn0]

/-- Witness for C5 at `c = 1000` and `n = 2` ticks. -/
theorem C5_convergence_95_temoin :
    (∀ p ∈ positionsScenario 1000 2, p ≤ 95) ∧
    (1 ≤ 2 → positionsScenario 1000 2 = [95]) :=
  C5_convergence_95 1000 2 (by norm_num) (by norm_num)

/-! ### Theorems: kernel refinement (C6) -/

theorem getD_set_ne (l : List ℚ) (i j : ℕ) (a : ℚ) (h : i ≠ j) :
    (l.set i a).getD j 0 = l.getD j 0 := by
  simp [List.getD, List.getElem?_set_ne h]

theorem noyaux_etats_egaux (positions speeds limits lengths densities variations : List ℚ)
    (flags : List Bool) (delta_t : ℚ) : ∀ n : ℕ,
    (List.range n).foldl (pasPy positions limits lengths densities variations flags delta_t)
      (positions, speeds) =
    (List.range n).foldl (pasNumba limits lengths densities variations flags delta_t)
      (positions, speeds) ∧
    ∀ j, n ≤ j →
      ((List.range n).foldl (pasNumba limits lengths densities variations flags delta_t)
        (positions, speeds)).1.getD j 0 = positions.getD j 0 := by
  intro n
  induction n with
  | zero => exact ⟨rfl, fun j _ => rfl⟩
  | succ n ih =>
      obtain ⟨heq, hinv⟩ := ih
      simp only [List.range_succ, List.foldl_append, List.foldl_cons, List.foldl_nil]
      set st := (List.range n).foldl
        (pasNumba limits lengths densities variations flags delta_t)
        (positions, speeds) with hst
      constructor
      · rw [heq]
        have hn := hinv n (le_refl n)
        unfold pasPy pasNumba
        rw [hn]
      · intro j hj
        have hne : n ≠ j := by omega
        have hj' := hinv j (by omega)
        unfold pasNumba
        dsimp only
        rw [getD_set_ne _ _ _ _ hne]
        exact hj'

/-- **C6.** The reference sequential kernel and the accelerated kernel are
behaviorally interchangeable: for every input batch (positions, speeds,
limits, lengths, densities, dt), when `update_positions_numba` is given the
same per-vehicle variation factors and the same per-vehicle adaptation flags
that `update_positions_py` draws internally, both produce identical new
positions and new speeds. -/
theorem C6_noyaux_interchangeables
    (positions speeds limits lengths densities variations : List ℚ)
    (flags : List Bool) (delta_t : ℚ) :
    update_positions_py positions speeds limits lengths densities variations flags delta_t =
    update_positions_numba positions speeds limits lengths densities variations flags
      delta_t := by
  unfold update_positions_py update_positions_numba
  exact (noyaux_etats_egaux positions speeds limits lengths densities variations flags
    delta_t positions.length).1

/-! ### Theorems: network exit routing (C4, C10) -/

theorem changer_identifiant (v : Vehicule) (nr : String) (np : ℚ) :
    (v.changer_de_route nr np).identifiant = v.identifiant := by
  unfold Vehicule.changer_de_route
  split_ifs <;> rfl

theorem routesMaj_absent (l : List Route) (d : String) (rd : Route)
    (h : ∀ x ∈ l, x.nom ≠ d) : routesMaj l d rd = l := by
  induction l with
  | nil => rfl
  | cons a t ih =>
      unfold routesMaj
      simp only [List.map]
      rw [if_neg (h a (List.mem_cons_self a t))]
      have := ih (fun x hx => h x (List.mem_cons_of_mem a hx))
      unfold routesMaj at this
      rw [this]

theorem routesMaj_trouve_self (routes : List Route) (d : String) (rd : Route)
    (hnd : (routes.map (fun r => r.nom)).Nodup) (hfind : getRoute routes d = some rd) :
    routesMaj routes d rd = routes := by
  induction routes with
  | nil => simp [getRoute] at hfind
  | cons a l ih =>
      by_cases ha : a.nom = d
      · have hrd : rd = a := by
          unfold getRoute at hfind
          rw [List.find?_cons_of_pos _ (by simp [ha])] at hfind
          exact (Option.some_injective _ hfind).symm
        unfold routesMaj
        simp only [List.map]
        rw [if_pos ha, hrd]
        have habs : ∀ x ∈ l, x.nom ≠ d := by
          intro x hx
          have := (List.nodup_cons.mp hnd).1
          intro hxd
          exact this (by rw [← ha] at hxd; exact (List.mem_map.mpr ⟨x, hx, hxd⟩))
        have := routesMaj_absent l d a habs
        unfold routesMaj at this
        rw [this]
      · unfold getRoute at hfind
        rw [List.find?_cons_of_neg _ (by simp [ha])] at hfind
        have := ih (List.nodup_cons.mp hnd).2 hfind
        unfold routesMaj at this ⊢
        simp only [List.map]
        rw [if_neg ha, this]

/-- **C10.** During the network tick, when an exited vehicle is routed to its
first destination route but a vehicle with the same identifier is already
resident there, `ajouter_vehicule` is a reported no-op: the network's routes
are left completely unchanged — the exited vehicle ends up on no route at all
— yet `changements_route` is still incremented as if the transfer had
succeeded.  (`transfererVehicule` is the per-exited-vehicle body of
`ReseauRoutier.mettre_a_jour_reseau`; route names are dict keys, hence the
`Nodup` hypothesis.) -/
theorem C10_transfert_vers_doublon (routes : List Route) (inters : List (String × List String))
    (nom : String) (v : Vehicule) (ch : ℕ) (d : String) (rest : List String) (rd : Route)
    (hnd : (routes.map (fun r => r.nom)).Nodup)
    (hdest : getRoutesDestination inters nom = d :: rest)
    (hrd : getRoute routes d = some rd)
    (hdup : rd.vehicules_presents.any
      (fun x => decide (x.identifiant = v.identifiant)) = true) :
    transfererVehicule routes inters nom v ch = (routes, ch + 1) := by
  unfold transfererVehicule
  rw [hdest]
  dsimp only
  rw [hrd]
  dsimp only
  have hnoop : rd.ajouter_vehicule (v.changer_de_route d 0) = rd := by
    unfold Route.ajouter_vehicule
    rw [if_pos]
    rw [show (v.changer_de_route d 0).identifiant = v.identifiant from
      changer_identifiant v d 0]
    exact hdup
  rw [hnoop, routesMaj_trouve_self routes d rd hnd hrd]

/-- **C4 (amended).** In the network tick: a vehicle exiting a route whose
destination list is non-empty is routed to the *first* destination (never a
later one); *provided* that destination resolves to an existing route, that
no same-identifier vehicle is already resident there, and that the
destination's name is non-empty and its length non-negative, the vehicle is
appended to that route at position 0 with the destination name appended to
its route history, and `changements_route` is incremented.  A vehicle exiting
a route with an empty destination list is dropped: the routes and
`changements_route` are unchanged.  Every exited vehicle is counted in
`vehicules_sortis` (the per-route step adds the full exited-list length). -/
theorem C4_routage_sorties :
    (∀ (routes : List Route) (inters : List (String × List String)) (nom : String)
       (v : Vehicule) (ch : ℕ) (d : String) (rest : List String) (rd : Route),
      getRoutesDestination inters nom = d :: rest →
      d ≠ "" →
      getRoute routes d = some rd →
      rd.vehicules_presents.any (fun x => decide (x.identifiant = v.identifiant)) = false →
      0 ≤ rd.longueur →
      transfererVehicule routes inters nom v ch =
        (routesMaj routes d
          { rd with vehicules_presents := rd.vehicules_presents ++
              [{ v with route_actuelle := rd.nom, position := 0,
                        historique_routes := v.historique_routes ++ [d] }] }, ch + 1)) ∧
    (∀ (routes : List Route) (inters : List (String × List String)) (nom : String)
       (v : Vehicule) (ch : ℕ),
      getRoutesDestination inters nom = [] →
      transfererVehicule routes inters nom v ch = (routes, ch)) ∧
    (∀ (inters : List (String × List String)) (rs : List Route) (c s : ℕ) (nom : String)
       (route : Route),
      getRoute rs nom = some route →
      (traiterRoute inters (rs, c, s) nom).2.2 =
        s + (route.mettre_a_jour_vehicules 1).2.length) := by
  refine ⟨?_, ?_, ?_⟩
  · intro routes inters nom v ch d rest rd hdest hd hrd hdup hlong
    unfold transfererVehicule
    rw [hdest]
    dsimp only
    rw [hrd]
    dsimp only
    have hch : v.changer_de_route d 0 =
        { v with route_actuelle := d, position := 0,
                 historique_routes := v.historique_routes ++ [d] } := by
      unfold Vehicule.changer_de_route
      rw [if_neg hd, if_neg (by norm_num)]
    have hadd : rd.ajouter_vehicule (v.changer_de_route d 0) =
        { rd with vehicules_presents := rd.vehicules_presents ++
            [{ v with route_actuelle := rd.nom, position := 0,
                      historique_routes := v.historique_routes ++ [d] }] } := by
      unfold Route.ajouter_vehicule
      rw [if_neg, if_neg]
      · rw [hch]
      · rw [hch]; simp; linarith
      · rw [show (v.changer_de_route d 0).identifiant = v.identifiant from
          changer_identifiant v d 0, hdup]
        exact Bool.false_ne_true
    rw [hadd]
  · intro routes inters nom v ch hdest
    unfold transfererVehicule
    rw [hdest]
  · intro inters rs c s nom route hroute
    unfold traiterRoute
    rw [hroute]

theorem etapeA : Route.mettre_a_jour_vehicules routeA 1 =
    ({ nom := "A", longueur := 10, limite_vitesse := 50, vehicules_presents := [],
       feux_rouges := [] },
     [{ identifiant := 1, route_actuelle := "A", position := 10, vitesse := 36,
        historique_routes := ["A"] }]) := by
  norm_num [Route.mettre_a_jour_vehicules, Route.deplacer, Route.get_distance_avant_obstacle,
    Vehicule.avancer, routeA, List.isEmpty, List.filter]

theorem etapeB : Route.mettre_a_jour_vehicules routeB 1 = (routeB, []) := by
  norm_num [Route.mettre_a_jour_vehicules, Route.deplacer, Route.get_distance_avant_obstacle,
    Vehicule.avancer, routeB, List.isEmpty, List.filter]

theorem etapeT : transfererVehicule
    [{ nom := "A", longueur := 10, limite_vitesse := 50, vehicules_presents := [],
       feux_rouges := [] }, routeB]
    [("A", ["B"]), ("B", [])] ("A")
    { identifiant := 1, route_actuelle := "A", position := 10, vitesse := 36,
      historique_routes := ["A"] } 0 =
    ([{ nom := "A", longueur := 10, limite_vitesse := 50, vehicules_presents := [],
        feux_rouges := [] }, routeB], 1) := by
  have s1 : decide (("A" : String) = "B") = false := rfl
  have s2 : decide (("B" : String) = "B") = true := rfl
  have s3 : decide (("A" : String) = "A") = true := rfl
  have s4 : (("B" : String) = "") = False := by simp
  have s5 : (("A" : String) = "B") = False := by simp
  have s6 : (("B" : String) = "B") = True := by simp
  norm_num [transfererVehicule, getRoutesDestination, getRoute, List.find?, routesMaj,
    Vehicule.changer_de_route, Route.ajouter_vehicule, routeB, List.any_cons, List.any_nil,
    s1, s2, s3, s4, s5, s6]

theorem etape1 : traiterRoute [("A", ["B"]), ("B", [])] ([routeA, routeB], 0, 0) ("A") =
    ([{ nom := "A", longueur := 10, limite_vitesse := 50, vehicules_presents := [],
        feux_rouges := [] }, routeB], 1, 1) := by
  have hnomA : routeA.nom = "A" := rfl
  have hnomB : routeB.nom = "A" ↔ False := by simp [routeB]
  have s6 : (("A" : String) = "A") = True := by simp
  norm_num [traiterRoute, getRoute, List.find?, hnomA, hnomB, etapeA, routesMaj,
    List.foldl, etapeT, s6]

theorem etape2 : traiterRoute [("A", ["B"]), ("B", [])]
    ([{ nom := "A", longueur := 10, limite_vitesse := 50, vehicules_presents := [],
        feux_rouges := [] }, routeB], 1, 1) ("B") =
    ([{ nom := "A", longueur := 10, limite_vitesse := 50, vehicules_presents := [],
        feux_rouges := [] }, routeB], 1, 1) := by
  have hnomB : routeB.nom = "B" := rfl
  have s5 : (("A" : String) = "B") = False := by simp
  have s6 : (("B" : String) = "B") = True := by simp
  norm_num [traiterRoute, getRoute, List.find?, hnomB, etapeB, routesMaj,
    List.foldl, s5, s6]

/-- Counterexample to **C4** as stated.  In `reseauExemple`, vehicle 1 exits
route A (destinations `[B]`), but route B already holds a distinct resident
that also has identifier 1, so the insertion is a silent no-op: after the
network tick, route A is empty and route B still holds exactly its original
resident (no vehicle with history `["A", "B"]` exists anywhere) — the exited
vehicle was *not* placed on the first destination route — yet
`changements_route` = 1 and `vehicules_sortis` = 1. -/
theorem C4_contre_exemple :
    (ReseauRoutier.mettre_a_jour_reseau reseauExemple).2.1 = 1 ∧
    (ReseauRoutier.mettre_a_jour_reseau reseauExemple).2.2 = 1 ∧
    ((ReseauRoutier.mettre_a_jour_reseau reseauExemple).1.routes.map
      (fun r => r.vehicules_presents)) =
      [[], [{ identifiant := 1, route_actuelle := "B", position := 0, vitesse := 0,
              historique_routes := ["B"] }]] := by
  have hnomA : routeA.nom = "A" := rfl
  have hnomB : routeB.nom = "B" := rfl
  have hvB : routeB.vehicules_presents =
      [{ identifiant := 1, route_actuelle := "B", position := 0, vitesse := 0,
         historique_routes := ["B"] }] := rfl
  refine ⟨?_, ?_, ?_⟩ <;>
    norm_num [-Prod.mk_zero_zero, -Prod.mk_one_one, ReseauRoutier.mettre_a_jour_reseau, reseauExemple,
      hnomA, hnomB, List.foldl, etape1, etape2, hvB]

/-- Witness for C10 at a concrete network state. -/
theorem C10_transfert_vers_doublon_temoin :
    transfererVehicule [routeB] [("A", ["B"])] ("A")
      { identifiant := 1, route_actuelle := "A", position := 10, vitesse := 36,
        historique_routes := ["A"] } 0 = ([routeB], 0 + 1) :=
  C10_transfert_vers_doublon [routeB] [("A", ["B"])] "A"
    { identifiant := 1, route_actuelle := "A", position := 10, vitesse := 36,
      historique_routes := ["A"] } 0 "B" [] routeB
    (by decide) rfl rfl rfl

/-- Witness for the amended C4: the three parts at concrete network states. -/
theorem C4_routage_sorties_temoin :
    transfererVehicule [{ nom := "B", longueur := 10, limite_vitesse := 50,
                          vehicules_presents := [], feux_rouges := [] }] [("A", ["B"])] ("A")
      { identifiant := 1, route_actuelle := "A", position := 10, vitesse := 36,
        historique_routes := ["A"] } 0 =
      (routesMaj [{ nom := "B", longueur := 10, limite_vitesse := 50,
                    vehicules_presents := [], feux_rouges := [] }] ("B")
        { nom := "B", longueur := 10, limite_vitesse := 50,
          vehicules_presents := [] ++
            [{ identifiant := 1, route_actuelle := "B", position := 0, vitesse := 36,
               historique_routes := ["A"] ++ ["B"] }],
          feux_rouges := [] }, 0 + 1) ∧
    transfererVehicule [routeB] [("B", ([] : List String))] ("B")
      { identifiant := 1, route_actuelle := "B", position := 10, vitesse := 36,
        historique_routes := ["B"] } 3 = ([routeB], 3) ∧
    (traiterRoute [("C", ([] : List String))] ([routeC8], 0, 4) ("C")).2.2 =
      4 + (routeC8.mettre_a_jour_vehicules 1).2.length := by
  refine ⟨C4_routage_sorties.1
      [{ nom := "B", longueur := 10, limite_vitesse := 50,
         vehicules_presents := [], feux_rouges := [] }] [("A", ["B"])] "A"
      { identifiant := 1, route_actuelle := "A", position := 10, vitesse := 36,
        historique_routes := ["A"] } 0 "B" []
      { nom := "B", longueur := 10, limite_vitesse := 50,
        vehicules_presents := [], feux_rouges := [] }
      rfl (by decide) rfl rfl (by norm_num),
    C4_routage_sorties.2.1 [routeB] [("B", [])] "B"
      { identifiant := 1, route_actuelle := "B", position := 10, vitesse := 36,
        historique_routes := ["B"] } 3 rfl,
    C4_routage_sorties.2.2 [("C", [])] [routeC8] 0 4 "C" routeC8 rfl⟩

/-! ### Theorems: construction validation (C9) -/

/-- Counterexample to **C9** as stated.  `Route.__init__` with a non-positive
length raises before any attribute is assigned; the exception is caught and
printed, but no defaults are substituted — no usable object results
(modelled: the constructor yields `none`, not a route with safe defaults). -/
theorem C9_contre_exemple : Route.init ("A") 0 90 = none := rfl

/-- **C9 (amended).** `FeuRouge` construction never fails: a non-positive
uniform duration, a missing state, a non-positive per-state duration or an
unsupported cycle type are each reported and replaced by the safe default
(uniform 5-second red/green/amber cycle starting red with elapsed 0).
`Route` construction, however, recovers nothing: with a non-positive length
or speed limit it only reports, leaving the attributes unassigned (no usable
object, modelled `none`); on valid input it yields the fresh route. -/
theorem C9_construction_recuperation :
    (∀ d : ℚ, d ≤ 0 → FeuRouge.init (CycleArg.nombre d) = feuDefaut) ∧
    FeuRouge.init CycleArg.autre = feuDefaut ∧
    (∀ m : List (Etat × ℚ), etatsManquants m ≠ [] →
      FeuRouge.init (CycleArg.table m) = feuDefaut) ∧
    (∀ m : List (Etat × ℚ), m.any (fun p => decide (p.2 ≤ 0)) = true →
      FeuRouge.init (CycleArg.table m) = feuDefaut) ∧
    feuDefaut = ⟨fun _ => 5, rouge, 0⟩ ∧
    (∀ (nom : String) (longueur limite_vitesse : ℚ),
      longueur ≤ 0 ∨ limite_vitesse ≤ 0 → Route.init nom longueur limite_vitesse = none) ∧
    (∀ (nom : String) (longueur limite_vitesse : ℚ),
      0 < longueur → 0 < limite_vitesse →
      Route.init nom longueur limite_vitesse =
        some { nom := nom, longueur := longueur, limite_vitesse := limite_vitesse,
               vehicules_presents := [], feux_rouges := [] }) := by
  refine ⟨?_, rfl, ?_, ?_, rfl, ?_, ?_⟩
  · intro d hd
    unfold FeuRouge.init
    dsimp only
    rw [if_pos hd]
  · intro m hm
    unfold FeuRouge.init
    dsimp only
    rw [if_pos hm]
  · intro m hm
    unfold FeuRouge.init
    dsimp only
    split_ifs with h1 h2 <;> first | rfl | exact absurd hm (by rw [h2]; exact Bool.false_ne_true)
  · intro nom longueur limite hv
    unfold Route.init
    rcases hv with h | h
    · rw [if_pos h]
    · split_ifs <;> rfl
  · intro nom longueur limite h1 h2
    unfold Route.init
    rw [if_neg (not_le.mpr h1), if_neg (not_le.mpr h2)]

/-- Witness for the amended C9 at concrete constructor arguments. -/
theorem C9_construction_recuperation_temoin :
    FeuRouge.init (CycleArg.nombre 0) = feuDefaut ∧
    FeuRouge.init (CycleArg.table [(rouge, 3)]) = feuDefaut ∧
    FeuRouge.init (CycleArg.table [(rouge, 3), (vert, 0), (orange, 2)]) = feuDefaut ∧
    Route.init ("A") (-5) 90 = none ∧
    Route.init ("A") 1000 90 =
      some { nom := "A", longueur := 1000, limite_vitesse := 90,
             vehicules_presents := [], feux_rouges := [] } :=
  ⟨C9_construction_recuperation.1 0 (by norm_num),
   C9_construction_recuperation.2.2.1 [(rouge, 3)] (by decide),
   C9_construction_recuperation.2.2.2.1 [(rouge, 3), (vert, 0), (orange, 2)] (by decide),
   C9_construction_recuperation.2.2.2.2.2.1 "A" (-5) 90 (Or.inl (by norm_num)),
   C9_construction_recuperation.2.2.2.2.2.2 "A" 1000 90 (by norm_num) (by norm_num)⟩
